import Mathlib

/-!
# Verification of the EMIS-to-ACG file-processing core

A shallow embedding of the mapping-driven transformation engine of
`src/config.py` and `src/processing.py`, together with theorems settling the
frozen claims about it.

Modelling conventions
* A pandas cell is `Cell := Option String`; `none` models a missing value
  (`NaN`).  All inputs are loaded with `dtype=str`, so present cells are
  strings.
* A `DF` (DataFrame) is a row count `nrow` together with an ordered list of
  named columns.  By construction every column produced by the embedded code
  has length `nrow`; the embedding never relies on this silently (the source's
  own length guard in `_apply_transformation` is modelled explicitly).
* Row alignment is positional.  All frames manipulated by the engine share a
  unique index (the caller's tables come from `pd.read_csv`, the patient table
  is de-duplicated before being re-indexed), so pandas index alignment
  coincides with positional alignment.
* A raised-and-not-caught Python exception is modelled by `Except.error`;
  functions of the source that can only return (never throw) are modelled with
  plain `Option`.
* `pd.to_datetime` is an external library routine whose parsing behaviour the
  claims never touch; it is taken as a parameter
  `toDT : String → Option String` returning the `YYYY-MM-DD` rendering of a
  parseable date and `none` otherwise.
-/

namespace AcgEngine

/-- A single pandas cell: `none` is `NaN` (missing), `some s` a string value. -/
abbrev Cell := Option String

/-- `str(x)` as applied by `.astype(str)`: `NaN` renders as the string `"nan"`. -/
def cellToStr : Cell → String
  | none => "nan"
  | some s => s

/-- Python `str.strip` whitespace set (ASCII part; the engine's data is ASCII). -/
def pyIsSpace (c : Char) : Bool :=
  c = ' ' || c = '\t' || c = '\n' || c = '\r' || c = '\x0b' || c = '\x0c'

/-- Strip from a character list: drop leading and trailing whitespace. -/
def stripChars (l : List Char) : List Char :=
  ((l.dropWhile pyIsSpace).reverse.dropWhile pyIsSpace).reverse

/-- Python `str.strip()`. -/
def pyStrip (s : String) : String :=
  ⟨stripChars s.data⟩

/-- The test `pd.isna(x) or str(x).strip() == ''` used throughout the source to
recognise an absent/blank mapping field. -/
def isBlankCell : Cell → Bool
  | none => true
  | some s => pyStrip s = ""

/-- A cell that renders as an empty field in the delimited output
(`to_csv` writes both `NaN` and `""` as an empty field). -/
def rendersEmpty : Cell → Bool
  | none => true
  | some s => s = ""

/-- A present, non-empty string cell. -/
def cellNonEmpty : Cell → Bool
  | none => false
  | some s => !(s == "")

/-- One step of first-seen-order deduplication: append the element unless
seen already. -/
def uniqStep [DecidableEq α] (acc : List α) (a : α) : List α :=
  if a ∈ acc then acc else acc ++ [a]

/-- First-seen-order deduplication, as `pandas.Series.unique` returns labels. -/
def uniqFS [DecidableEq α] (l : List α) : List α :=
  l.foldl uniqStep []

/-- Python `list.insert(n, a)` (appends when `n` is past the end). -/
def insertAt : Nat → α → List α → List α
  | 0, a, l => a :: l
  | _ + 1, a, [] => [a]
  | n + 1, a, x :: l => x :: insertAt n a l

/-- `l.insert(0, l.pop(l.index(x)))` when `x ∈ l`, else no change. -/
def moveFront [DecidableEq α] (x : α) (l : List α) : List α :=
  if x ∈ l then x :: l.erase x else l

/-- `l.insert(n, l.pop(l.index(x)))` when `x ∈ l`, else no change. -/
def moveToPos [DecidableEq α] (x : α) (n : Nat) (l : List α) : List α :=
  if x ∈ l then insertAt n x (l.erase x) else l

/-- Replace the first occurrence of `a` by `b` (Python
`l[l.index(a)] = b`, guarded by `a in l`). -/
def replaceFirst [DecidableEq α] (l : List α) (a b : α) : List α :=
  match l with
  | [] => []
  | x :: xs => if x = a then b :: xs else x :: replaceFirst xs a b

/-! ## DataFrames -/

/-- A DataFrame: a row count and an ordered association list of columns. -/
structure DF where
  nrow : Nat
  cols : List (String × List Cell)
deriving DecidableEq, Repr

namespace DF

/-- Column labels in order. -/
def colNames (df : DF) : List String := df.cols.map Prod.fst

/-- Look a column up by label (first match). -/
def getCol? (df : DF) (c : String) : Option (List Cell) :=
  (df.cols.find? (fun p => p.1 = c)).map Prod.snd

/-- Column lookup, defaulting to `[]` for an absent label. -/
def getColD (df : DF) (c : String) : List Cell :=
  (df.getCol? c).getD []

/-- `c in df.columns`. -/
def hasCol (df : DF) (c : String) : Bool :=
  df.cols.any (fun p => p.1 = c)

/-- `df[c] = v`: overwrite the column when the label exists, else append it. -/
def setCol (df : DF) (c : String) (v : List Cell) : DF :=
  if df.hasCol c then
    ⟨df.nrow, df.cols.map (fun p => if p.1 = c then (c, v) else p)⟩
  else
    ⟨df.nrow, df.cols ++ [(c, v)]⟩

/-- `df.rename(columns={a: b})`: relabel every column named `a`. -/
def renameCol (df : DF) (a b : String) : DF :=
  ⟨df.nrow, df.cols.map (fun p => if p.1 = a then (b, p.2) else p)⟩

/-- `df[names]`: label-based selection; `none` models the `KeyError` raised
when a requested label is absent (duplicate labels are allowed, as in
pandas). -/
def selectCols? (df : DF) (names : List String) : Option DF :=
  if names.all df.hasCol then
    some ⟨df.nrow, names.map (fun c => (c, df.getColD c))⟩
  else
    none

/-- `df.empty`: true when the frame has no rows or no columns. -/
def isEmpty (df : DF) : Bool :=
  df.nrow == 0 || df.cols.isEmpty

end DF

/-- Filter one column by a boolean mask (positionally aligned). -/
def maskFilter (mask : List Bool) (col : List Cell) : List Cell :=
  (col.zip mask).filterMap (fun p => if p.2 then some p.1 else none)

/-- Boolean-mask row selection `df[mask]`; the new row count is the number of
kept rows. -/
def filterRows (df : DF) (mask : List Bool) : DF :=
  ⟨mask.count true, df.cols.map (fun p => (p.1, maskFilter mask p.2))⟩

/-- `pd.concat([a, b])` for frames with identical column layouts (the engine
only concatenates per-source frames that were all passed through the same
`df[target_columns]` selection). -/
def concat2 (a b : DF) : DF :=
  ⟨a.nrow + b.nrow, a.cols.map (fun p => (p.1, p.2 ++ b.getColD p.1))⟩

/-- `pd.concat(dfs, ignore_index=True)` over a list of same-layout frames. -/
def concatDFs : List DF → DF
  | [] => ⟨0, []⟩
  | d :: rest => concat2 d (concatDFs rest)

/-- Lookup in the caller-supplied `input_data_dict`. -/
def lookupDF (inputs : List (String × DF)) (k : String) : Option DF :=
  (inputs.find? (fun p => p.1 = k)).map Prod.snd

/-! ## Transformation registry (`src/config.py`) -/

/-- `config.MERGE_KEY`. -/
def MERGE_KEY : String := "PatientID"

/-- `.str.upper()`: character-wise upper-casing (the engine's codes are
ASCII). -/
def pyUpper (s : String) : String :=
  ⟨s.data.map Char.toUpper⟩

/-- `transform_sex` per cell: `.astype(str).str.upper().map({...}).fillna('9')`.
The dictionary lookup on the upper-cased rendering of the cell. -/
def sexLookup (s : String) : Option String :=
  if s = "M" then some "1"
  else if s = "F" then some "2"
  else if s = "1" then some "1"
  else if s = "2" then some "2"
  else none

/-- One cell of `transform_sex` (`NaN` renders as `"nan"` under `astype(str)`,
which is not in the dictionary, hence `'9'` via `fillna`). -/
def transformSexCell (c : Cell) : String :=
  (sexLookup (pyUpper (cellToStr c))).getD "9"

/-- One cell of `determine_dx_version`: `''` for a missing or
whitespace-only code, `'S'` otherwise. -/
def determineDxVersionCell (c : Cell) : String :=
  match c with
  | none => ""
  | some s => if pyStrip s = "" then "" else "S"

/-- One cell of `determine_rx_code_type`: `''` for a missing or empty code
(note: no strip here, unlike `determine_dx_version`), else the placeholder
`'RRxUK'`. -/
def determineRxCodeTypeCell (c : Cell) : String :=
  match c with
  | none => ""
  | some s => if s = "" then "" else "RRxUK"

/-- `format_date_yyyy_mm_dd` over a column: `pd.to_datetime(·, errors='coerce')`
then `strftime('%Y-%m-%d')` on the parseable entries, `''` elsewhere (`NaN`
coerces to `NaT`, rendered `''`).  `toDT` is the library parser. -/
def formatDateCol (toDT : String → Option String) (cells : List Cell) : List String :=
  cells.map (fun c =>
    match c with
    | none => ""
    | some s => (toDT s).getD "")

/-- The keys of `config.TRANSFORMATIONS`. -/
def TRANSFORMATIONS : List String :=
  ["transform_sex", "format_date_yyyy_mm_dd", "determine_dx_version",
   "determine_rx_code_type", "set_zero_cost", "set_zero_utilization"]

/-- A registered transformation applied to a full column (a `pd.Series`).
Every registered function is total on Series input and returns one string per
row. -/
def applyToColumn (toDT : String → Option String) (name : String)
    (cells : List Cell) : List String :=
  if name = "transform_sex" then cells.map transformSexCell
  else if name = "format_date_yyyy_mm_dd" then formatDateCol toDT cells
  else if name = "determine_dx_version" then cells.map determineDxVersionCell
  else if name = "determine_rx_code_type" then cells.map determineRxCodeTypeCell
  else cells.map (fun _ => "0")   -- set_zero_cost / set_zero_utilization

/-- A registered transformation applied to the frame's *index*
(`source_col_name=None` in `_apply_transformation`).  `idx` is the list of
index labels rendered as cells (`PatientID` values for the patient frame, the
decimal row numbers of the default `RangeIndex` otherwise).  The result is
`none` when the call raises (the caller catches the exception):
* `determine_dx_version` / `determine_rx_code_type` call `.apply`, which
  `pd.Index` does not have → `AttributeError`;
* `format_date_yyyy_mm_dd` and `set_zero_*` evaluate `input_series.index`,
  an attribute `pd.Index` does not have → `AttributeError`;
* `transform_sex` uses only `astype/str/map/fillna`, all available on
  `pd.Index`, so it succeeds cell-wise. -/
def applyToIndex (name : String) (idx : List Cell) : Option (List String) :=
  if name = "transform_sex" then some (idx.map transformSexCell)
  else none

/-! ## Column resolution (`_apply_transformation`, `src/processing.py:11`) -/

/-- The result-length check of `_apply_transformation`
(`src/processing.py:55`): a series of the wrong length is discarded and
replaced by the all-`NaN` error column. -/
def lengthGuard (n : Nat) (r : List Cell) : List Cell :=
  if r.length = n then r else List.replicate n none

/-- `_apply_transformation(target, key, source_df, source_col_name)`, with the
frame's index labels passed explicitly as `idx`.  Its error paths all return
`pd.Series(dtype='object', index=source_df.index)`, an all-`NaN` column of
length `nrow`; the explicit result-length guard of the source is modelled as
written.  The function never lets an exception escape. -/
def applyTransformation (toDT : String → Option String) (key : String)
    (df : DF) (idx : List Cell) (srcCol : Option String) : List Cell :=
  if key ∉ TRANSFORMATIONS then List.replicate df.nrow none
  else
    match srcCol with
    | some c =>
        if df.hasCol c then
          lengthGuard df.nrow ((applyToColumn toDT key (df.getColD c)).map some)
        else List.replicate df.nrow none
    | none =>
        match applyToIndex key idx with
        | some out => lengthGuard df.nrow (out.map some)
        | none => List.replicate df.nrow none

/-! ## Mapping rules

One row of `mapping.csv` as loaded by `generate_acg_files`
(`src/processing.py:552`): read with `dtype=str`, then
`TransformationFunction` and `SourceLabel` are `fillna('')`.
`InputConfigKey` and `InputColumn` keep their possible `NaN`s and are
modelled as cells; `TargetACGFile`/`TargetACGColumn` are used as labels
throughout and are modelled as strings. -/
structure MappingRule where
  inputKey : Cell
  inputCol : Cell
  targetFile : String
  targetCol : String
  transformKey : String
  sourceLabel : String
deriving DecidableEq, Repr

/-! ## Patient-data generator (`_generate_patient_data`, `src/processing.py:65`) -/

/-- The keep-first-occurrence mask underlying
`drop_duplicates(subset=[MERGE_KEY], keep='first')`: position `i` is kept iff
its key has not occurred before (`seen` carries the keys already
encountered). -/
def dedupMaskGo (seen : List Cell) : List Cell → List Bool
  | [] => []
  | k :: rest =>
      if k ∈ seen then false :: dedupMaskGo seen rest
      else true :: dedupMaskGo (seen ++ [k]) rest

/-- The keep-first mask for a key column. -/
def dedupMask (keys : List Cell) : List Bool :=
  dedupMaskGo [] keys

/-- `if not df[MERGE_KEY].is_unique: df = df.drop_duplicates(subset=[MERGE_KEY],
keep='first')`. -/
def dedupByKey (df : DF) (key : String) : DF :=
  let keys := df.getColD key
  if keys.Nodup then df else filterRows df (dedupMask keys)

/-- The body of the patient-data column loop for a rule whose `InputConfigKey`
is `Patient_Details` (`src/processing.py:130`–`155`).  `dd` is the
de-duplicated patient frame, whose index is its `MERGE_KEY` column
(`set_index(MERGE_KEY, drop=False)`).

Branching, as in the source: a non-blank `InputColumn` that is absent from the
frame yields an all-`''` column (transform or not); a present one is copied
directly when no transform is given, else the transform is applied to it.  A
blank `InputColumn` with no transform yields `''`; with a transform, the
transform is applied to the index only when the `InputColumn` is an explicit
whitespace string — a missing (`NaN`) `InputColumn` leaves the initial
all-`NaN` series in place (`result_series` is never reassigned on that
path). -/
def resolvePatientCol (toDT : String → Option String) (rule : MappingRule)
    (dd : DF) : List Cell :=
  let idx := dd.getColD MERGE_KEY
  if !(isBlankCell rule.inputCol) then
    let ic := pyStrip (cellToStr rule.inputCol)
    if !(dd.hasCol ic) then List.replicate dd.nrow (some "")
    else if rule.transformKey = "" then dd.getColD ic
    else applyTransformation toDT rule.transformKey dd idx (some ic)
  else if rule.transformKey = "" then List.replicate dd.nrow (some "")
  else
    match rule.inputCol with
    | some _ => applyTransformation toDT rule.transformKey dd idx none
    | none => List.replicate dd.nrow none

/-- One iteration of the patient-data mapping loop
(`src/processing.py:107`–`158`): a rule whose `InputConfigKey` is not
`Patient_Details` is only honoured when its `InputColumn` is blank
(generation-only transform, or warned-and-empty); otherwise the rule is
skipped (`continue`) and its target column never assigned. -/
def patientLoopStep (toDT : String → Option String) (dd : DF)
    (out : DF) (rule : MappingRule) : DF :=
  if rule.inputKey ≠ some "Patient_Details" then
    if isBlankCell rule.inputCol then
      let r :=
        if rule.transformKey ≠ "" then
          applyTransformation toDT rule.transformKey dd (dd.getColD MERGE_KEY) none
        else List.replicate dd.nrow (some "")
      out.setCol rule.targetCol r
    else out
  else out.setCol rule.targetCol (resolvePatientCol toDT rule dd)

/-- The patient-data column loop over all `patient_data` rules, starting from
`pd.DataFrame(index=patient_details_df.index)`. -/
def buildPatientOut (toDT : String → Option String) (rules : List MappingRule)
    (dd : DF) : DF :=
  rules.foldl (patientLoopStep toDT dd) ⟨dd.nrow, []⟩

/-- `_generate_patient_data`: `None` models every `return None` path (missing
input table, missing merge key, no `patient_data` mapping rows, or a final
`KeyError` when a mapped target column was never generated).  The function
raises no exception.

The final `patient_id` arrangement (`src/processing.py:163`–`188`):
* `'patient_id'` among the mapped target columns → moved first;
* else, merge-key column not among the generated output columns → the original
  key column is added under its own name `MERGE_KEY` and put first;
* else → the column named `MERGE_KEY` is renamed to `'patient_id'`, which is
  both substituted at its old position in the column list and inserted first
  (so the selection duplicates it, as the source does). -/
def generatePatientData (toDT : String → Option String)
    (inputs : List (String × DF)) (mapping : List MappingRule) : Option DF :=
  match lookupDF inputs "Patient_Details" with
  | none => none
  | some pdf =>
    if !(pdf.hasCol MERGE_KEY) then none
    else
      let dd := dedupByKey pdf MERGE_KEY
      let pm := mapping.filter (fun r => r.targetFile = "patient_data")
      if pm.isEmpty then none
      else
        let out := buildPatientOut toDT pm dd
        let finalCols := uniqFS (pm.map MappingRule.targetCol)
        if "patient_id" ∈ finalCols then
          out.selectCols? (moveFront "patient_id" finalCols)
        else if dd.hasCol MERGE_KEY then
          if !(out.hasCol MERGE_KEY) then
            (out.setCol MERGE_KEY (dd.getColD MERGE_KEY)).selectCols?
              (MERGE_KEY :: finalCols.erase MERGE_KEY)
          else
            (out.renameCol MERGE_KEY "patient_id").selectCols?
              ("patient_id" :: replaceFirst finalCols MERGE_KEY "patient_id")
        else out.selectCols? finalCols

/-! ## Multi-source generators (`_generate_medical_services`,
`src/processing.py:196`, and `_generate_pharmacy_data`,
`src/processing.py:371`)

The two functions are line-for-line parallel; the embedding shares their
common body, instantiated with the parameters in which they differ:
* the cross-column transform (`determine_dx_version` needing the `dx_cd_1`
  rule vs `determine_rx_code_type` needing the `rx_cd` rule),
* the extra `dx_version_1` pre-filter (medical only),
* the mandatory row-filter columns (`patient_id`/`dx_cd_1` vs
  `patient_id`/`rx_cd`),
* the forced target-column positions. -/

/-- The per-rule column resolution of the multi-source loop
(`src/processing.py:256`–`318`).  `depTransform` names the transform with a
cross-column dependency on the group's rule targeting `depTarget`; for that
transform the input column is the *dependency* rule's raw `InputColumn`
(valid only if present, non-blank, and — unstripped — a column of the source
frame).  When the transform cannot be applied: a non-blank own `InputColumn`
yields an all-`''` column (the skip path), while a blank own `InputColumn`
counts as a generation transform and the call is made with the frame's index
(`is_generation_transform`, `src/processing.py:310`). -/
def resolveMultiCol (toDT : String → Option String)
    (depTransform depTarget : String) (group : List MappingRule)
    (rule : MappingRule) (df : DF) (idx : List Cell) : List Cell :=
  let preTransform : List Cell × Option String :=
    if !(isBlankCell rule.inputCol) then
      let ic := pyStrip (cellToStr rule.inputCol)
      if !(df.hasCol ic) then (List.replicate df.nrow (some ""), none)
      else if rule.transformKey = "" then (df.getColD ic, some ic)
      else (List.replicate df.nrow none, some ic)
    else if rule.transformKey = "" then
      (List.replicate df.nrow (some ""), none)
    else (List.replicate df.nrow none, none)
  if rule.transformKey = "" then preTransform.1
  else
    let actual : Option String :=
      if rule.transformKey = depTransform then
        match group.find? (fun r => r.targetCol = depTarget) with
        | some depRule =>
            match depRule.inputCol with
            | none => none
            | some d => if pyStrip d = "" || !(df.hasCol d) then none else some d
        | none => none
      else preTransform.2
    let canTransform := match actual with
      | some a => df.hasCol a
      | none => false
    if canTransform || isBlankCell rule.inputCol then
      applyTransformation toDT rule.transformKey df idx actual
    else List.replicate df.nrow (some "")

/-- Per-source assembly and filtering (`src/processing.py:252`–`352` /
`425`–`504`): resolve every rule of the group, fill unmapped target columns
with `''`, order the columns, then filter rows.  The optional `verCol`
pre-filter (medical's `dx_version_1`) keeps rows whose `astype(str)`
rendering is non-empty — which keeps `NaN` cells, since `str(nan) = 'nan'`.
`dropna(subset=[reqA, reqB])` raises an uncaught `KeyError` (modelled as
`.error`) when either column is absent, i.e. when it is not among the file's
target columns.  `.ok none` models a source whose rows were all filtered
out. -/
def processSource (toDT : String → Option String)
    (depTransform depTarget : String) (verCol : Option String)
    (reqA reqB : String) (targets : List String)
    (group : List MappingRule) (df : DF) : Except String (Option DF) :=
  let idx := (List.range df.nrow).map (fun i => some (toString i))
  let out0 := group.foldl
    (fun (o : DF) rule =>
      o.setCol rule.targetCol (resolveMultiCol toDT depTransform depTarget group rule df idx))
    ⟨df.nrow, []⟩
  let out1 := targets.foldl
    (fun o c => if o.hasCol c then o else o.setCol c (List.replicate df.nrow (some "")))
    out0
  match out1.selectCols? targets with
  | none => Except.ok none
  | some sel =>
    let st1 :=
      match verCol with
      | some v =>
          if sel.hasCol v then
            filterRows sel ((sel.getColD v).map (fun c => cellToStr c != ""))
          else sel
      | none => sel
    if !(st1.hasCol reqA && st1.hasCol reqB) then
      Except.error "KeyError: dropna subset column missing"
    else
      let st2 := filterRows st1
        (List.zipWith (fun (a b : Cell) => a.isSome && b.isSome)
          (st1.getColD reqA) (st1.getColD reqB))
      let st3 := filterRows st2
        (List.zipWith (fun (a b : Cell) => (cellToStr a != "") && (cellToStr b != ""))
          (st2.getColD reqA) (st2.getColD reqB))
      Except.ok (if st3.isEmpty then none else some st3)

/-- The per-source-label loop (`src/processing.py:229`–`352` / `404`–`504`):
skip the empty label, skip a label spanning several `InputConfigKey`s, skip
a label whose input table is absent or empty; otherwise process the source,
propagating an uncaught exception, and collect the non-empty results in
label order. -/
def sourcesLoop (inputs : List (String × DF))
    (proc : List MappingRule → DF → Except String (Option DF))
    (fileMapping : List MappingRule) : List String → Except String (List DF)
  | [] => Except.ok []
  | label :: rest =>
    if label = "" then sourcesLoop inputs proc fileMapping rest
    else
      let group := fileMapping.filter (fun r => r.sourceLabel = label)
      match uniqFS (group.map MappingRule.inputKey) with
      | [some ck] =>
        (match lookupDF inputs ck with
         | none => sourcesLoop inputs proc fileMapping rest
         | some df =>
           if df.isEmpty then sourcesLoop inputs proc fileMapping rest
           else
             match proc group df with
             | Except.error e => Except.error e
             | Except.ok none => sourcesLoop inputs proc fileMapping rest
             | Except.ok (some d) =>
               match sourcesLoop inputs proc fileMapping rest with
               | Except.error e => Except.error e
               | Except.ok ds => Except.ok (d :: ds))
      | _ => sourcesLoop inputs proc fileMapping rest

/-- `_generate_medical_services`.  `.ok none` models `return None` (no
mapping rows, no usable source label, or no source yielded rows);
`.error` models the uncaught `KeyError` of the row filters. -/
def generateMedicalServices (toDT : String → Option String)
    (inputs : List (String × DF)) (mapping : List MappingRule) :
    Except String (Option DF) :=
  let mm := mapping.filter (fun r => r.targetFile = "medical_services")
  if mm.isEmpty then Except.ok none
  else
    let labels := uniqFS (mm.map MappingRule.sourceLabel)
    if labels.isEmpty || labels = [""] then Except.ok none
    else
      let targets :=
        moveToPos "dx_cd_1" 1 (moveFront "patient_id"
          (uniqFS (mm.map MappingRule.targetCol)))
      match sourcesLoop inputs
          (processSource toDT "determine_dx_version" "dx_cd_1"
            (some "dx_version_1") "patient_id" "dx_cd_1" targets) mm labels with
      | Except.error e => Except.error e
      | Except.ok [] => Except.ok none
      | Except.ok (d :: ds) =>
          let cat := concatDFs (d :: ds)
          Except.ok (some ((cat.selectCols? targets).getD cat))

/-- `_generate_pharmacy_data` (parallel to the medical generator; no
`dx_version_1`-style pre-filter, required columns `patient_id`/`rx_cd`,
forced order `patient_id`, `rx_cd`, `rx_fill_date`). -/
def generatePharmacyData (toDT : String → Option String)
    (inputs : List (String × DF)) (mapping : List MappingRule) :
    Except String (Option DF) :=
  let mm := mapping.filter (fun r => r.targetFile = "pharmacy_data")
  if mm.isEmpty then Except.ok none
  else
    let labels := uniqFS (mm.map MappingRule.sourceLabel)
    if labels.isEmpty || labels = [""] then Except.ok none
    else
      let targets :=
        moveToPos "rx_fill_date" 2 (moveToPos "rx_cd" 1 (moveFront "patient_id"
          (uniqFS (mm.map MappingRule.targetCol))))
      match sourcesLoop inputs
          (processSource toDT "determine_rx_code_type" "rx_cd"
            none "patient_id" "rx_cd" targets) mm labels with
      | Except.error e => Except.error e
      | Except.ok [] => Except.ok none
      | Except.ok (d :: ds) =>
          let cat := concatDFs (d :: ds)
          Except.ok (some ((cat.selectCols? targets).getD cat))

/-! ## Orchestrator (`generate_acg_files`, `src/processing.py:522`)

The mapping-file loading (`mapping.csv`, not part of `src/`) and the disk
writes are the function's I/O shell: the mapping is taken here as an already
loaded parameter, and a write is modelled as appending the frame to the list
of written outputs (serialization itself does not fail in the model). -/

/-- A completed run: which files were written, and the single summary
`RuntimeError` raised at the end, if any. -/
structure RunOutcome where
  written : List (String × DF)
  raised : Option String
deriving DecidableEq, Repr

/-- `df is not None and not df.empty`: the test deciding both whether a file
is written and whether a required file counts as generated. -/
def genGood : Option DF → Bool
  | some df => !df.isEmpty
  | none => false

/-- The file written for one generator result (nothing when the result is
absent or empty). -/
def writeEntry (tag : String) : Option DF → List (String × DF)
  | some df => if df.isEmpty then [] else [(tag, df)]
  | none => []

/-- `generate_acg_files` after the mapping is loaded: run the three
generators in order, write each good result, and raise the single summary
error at the end iff the patient-data or medical-services result is missing
or empty (`generation_successful`).  An uncaught exception inside the
medical or pharmacy generator propagates immediately (`Except.error`),
short-circuiting the rest of the run. -/
def generateAcgFiles (toDT : String → Option String)
    (inputs : List (String × DF)) (mapping : List MappingRule) :
    Except String RunOutcome :=
  let p := generatePatientData toDT inputs mapping
  match generateMedicalServices toDT inputs mapping with
  | Except.error e => Except.error e
  | Except.ok m =>
    match generatePharmacyData toDT inputs mapping with
    | Except.error e => Except.error e
    | Except.ok ph =>
      Except.ok
        { written := writeEntry "patient_data" p ++ writeEntry "medical_services" m
            ++ writeEntry "pharmacy_data" ph
          raised :=
            if genGood p && genGood m then none
            else some "Failed to generate essential ACG files. Check logs for details." }

/-! ## Fixtures used by concrete evaluations -/

/-- Fixture: a medical-services rule group in which `dx_version_1` is derived
by `determine_dx_version` and the group's `dx_cd_1` rule reads column
`Code`; the `dx_version_1` rule's own `InputColumn` is the different column
`Other`. -/
def fixDxCdRule : MappingRule :=
  ⟨some "Care_History", some "Code", "medical_services", "dx_cd_1", "", "care"⟩

def fixDxVerRule : MappingRule :=
  ⟨some "Care_History", some "Other", "medical_services", "dx_version_1",
   "determine_dx_version", "care"⟩

def fixDxDf : DF :=
  ⟨2, [("Code", [some "X", some ""]), ("Other", [some "", some "Y"])]⟩

/-- Fixture: a `dx_version_1` rule with a missing (`NaN`) `InputColumn`, in a
group with no `dx_cd_1` rule at all. -/
def fixDxVerBlankRule : MappingRule :=
  ⟨some "Care_History", none, "medical_services", "dx_version_1",
   "determine_dx_version", "care"⟩

/-- Fixture: a `dx_version_1` rule with a present own `InputColumn`, in a
group with no `dx_cd_1` rule. -/
def fixDxVerOwnRule : MappingRule :=
  ⟨some "Care_History", some "Code", "medical_services", "dx_version_1",
   "determine_dx_version", "care"⟩

def fixDxDf1 : DF := ⟨1, [("Code", [some "X"])]⟩


/-! ## Supporting lemmas -/

theorem maskFilter_nil (m : List Bool) : maskFilter m [] = [] := rfl

theorem maskFilter_nil_mask (l : List Cell) : maskFilter [] l = [] := by
  unfold maskFilter
  rw [List.zip_nil_right]
  rfl

theorem maskFilter_cons (b : Bool) (m : List Bool) (x : Cell) (l : List Cell) :
    maskFilter (b :: m) (x :: l) =
      if b then x :: maskFilter m l else maskFilter m l := by
  cases b <;> rfl

theorem maskFilter_sublist (m : List Bool) (l : List Cell) :
    List.Sublist (maskFilter m l) l := by
  induction l generalizing m with
  | nil => simp [maskFilter_nil]
  | cons x t ih =>
    cases m with
    | nil => simp [maskFilter_nil_mask]
    | cons b mt =>
      rw [maskFilter_cons]
      cases b with
      | true => exact List.Sublist.cons₂ x (ih mt)
      | false => exact List.Sublist.cons x (ih mt)

theorem mem_maskFilter_map_self {f : Cell → Bool} {l : List Cell} {c : Cell}
    (h : c ∈ maskFilter (l.map f) l) : f c = true := by
  induction l with
  | nil => simp [maskFilter_nil] at h
  | cons x t ih =>
    rw [List.map_cons, maskFilter_cons] at h
    by_cases hf : f x
    · rw [if_pos hf] at h
      rcases List.mem_cons.mp h with rfl | h2
      · exact hf
      · exact ih h2
    · rw [if_neg hf] at h
      exact ih h

theorem mem_maskFilter_zipWith_left {h2 : Cell → Cell → Bool}
    {l r : List Cell} {c : Cell}
    (h : c ∈ maskFilter (List.zipWith h2 l r) l) : ∃ b, h2 c b = true := by
  induction l generalizing r with
  | nil => simp [maskFilter_nil] at h
  | cons x t ih =>
    cases r with
    | nil => simp [maskFilter_nil_mask] at h
    | cons y u =>
      rw [List.zipWith_cons_cons, maskFilter_cons] at h
      by_cases hf : h2 x y
      · rw [if_pos hf] at h
        rcases List.mem_cons.mp h with rfl | hh
        · exact ⟨y, hf⟩
        · exact ih hh
      · rw [if_neg hf] at h
        exact ih h

theorem mem_maskFilter_zipWith_right {h2 : Cell → Cell → Bool}
    {l r : List Cell} {c : Cell}
    (h : c ∈ maskFilter (List.zipWith h2 l r) r) : ∃ a, h2 a c = true := by
  induction r generalizing l with
  | nil => simp [maskFilter_nil] at h
  | cons y u ih =>
    cases l with
    | nil => simp [maskFilter_nil_mask] at h
    | cons x t =>
      rw [List.zipWith_cons_cons, maskFilter_cons] at h
      by_cases hf : h2 x y
      · rw [if_pos hf] at h
        rcases List.mem_cons.mp h with rfl | hh
        · exact ⟨x, hf⟩
        · exact ih hh
      · rw [if_neg hf] at h
        exact ih h

theorem maskFilter_length_eq_count {m : List Bool} {l : List Cell}
    (h : m.length = l.length) : (maskFilter m l).length = m.count true := by
  induction l generalizing m with
  | nil =>
    cases m with
    | nil => rfl
    | cons b mt => simp at h
  | cons x t ih =>
    cases m with
    | nil => simp at h
    | cons b mt =>
      rw [maskFilter_cons]
      simp only [List.length_cons, Nat.add_right_cancel_iff] at h
      cases b with
      | true => simp [ih h, List.count_cons]
      | false => simp [ih h, List.count_cons]

theorem maskFilter_replicate_true (l : List Cell) :
    maskFilter (List.replicate l.length true) l = l := by
  induction l with
  | nil => rfl
  | cons x t ih => simp [List.replicate, maskFilter_cons, ih]

theorem find?_label_cons_pos {c : String} {x : String × List Cell}
    (l : List (String × List Cell)) (h : x.1 = c) :
    List.find? (fun p => decide (p.1 = c)) (x :: l) = some x :=
  List.find?_cons_of_pos l (decide_eq_true h)

theorem find?_label_cons_neg {c : String} {x : String × List Cell}
    (l : List (String × List Cell)) (h : ¬ x.1 = c) :
    List.find? (fun p => decide (p.1 = c)) (x :: l) =
      List.find? (fun p => decide (p.1 = c)) l :=
  List.find?_cons_of_neg l (by simp [h])

/-- The key association-list lemma: `find?` by label commutes with a map
that keeps labels. -/
theorem find?_map_keyed (g : String × List Cell → List Cell)
    (cols : List (String × List Cell)) (c : String) :
    (cols.map (fun p => (p.1, g p))).find? (fun p => decide (p.1 = c)) =
      (cols.find? (fun p => decide (p.1 = c))).map (fun p => (p.1, g p)) := by
  induction cols with
  | nil => rfl
  | cons p t ih =>
    by_cases hp : p.1 = c
    · rw [List.map_cons, find?_label_cons_pos _ (show (p.1, g p).1 = c from hp),
        find?_label_cons_pos _ hp]
      rfl
    · rw [List.map_cons, find?_label_cons_neg _ (show ¬(p.1, g p).1 = c from hp),
        find?_label_cons_neg _ hp]
      exact ih

namespace DF

theorem hasCol_iff_mem_colNames (df : DF) (c : String) :
    df.hasCol c = true ↔ c ∈ df.colNames := by
  unfold hasCol colNames
  rw [List.any_eq_true]
  constructor
  · rintro ⟨p, hp, he⟩
    exact List.mem_map.mpr ⟨p, hp, of_decide_eq_true he⟩
  · intro h
    rcases List.mem_map.mp h with ⟨p, hp, he⟩
    exact ⟨p, hp, decide_eq_true he⟩

theorem getCol?_isSome_iff (df : DF) (c : String) :
    (df.getCol? c).isSome = true ↔ df.hasCol c = true := by
  unfold getCol? hasCol
  rw [Option.isSome_map', List.find?_isSome, List.any_eq_true]

theorem getCol?_find? (df : DF) (c : String) (p : String × List Cell)
    (h : df.cols.find? (fun p => decide (p.1 = c)) = some p) :
    df.getCol? c = some p.2 ∧ p.1 = c := by
  refine ⟨by unfold getCol?; rw [h]; rfl, ?_⟩
  have := List.find?_some h
  exact of_decide_eq_true this

theorem nrow_setCol (df : DF) (c : String) (v : List Cell) :
    (df.setCol c v).nrow = df.nrow := by
  unfold setCol
  split <;> rfl

theorem nrow_renameCol (df : DF) (a b : String) :
    (df.renameCol a b).nrow = df.nrow := rfl

theorem find?_append_none {l₁ l₂ : List (String × List Cell)}
    {p : String × List Cell → Bool} (h : l₁.find? p = none) :
    (l₁ ++ l₂).find? p = l₂.find? p := by
  induction l₁ with
  | nil => rfl
  | cons x t ih =>
    simp only [List.find?] at h ⊢
    cases hx : p x with
    | true => rw [hx] at h; cases h
    | false =>
      rw [hx] at h
      exact ih h

theorem find?_some_append {l₁ l₂ : List (String × List Cell)}
    {p : String × List Cell → Bool} {x : String × List Cell}
    (h : l₁.find? p = some x) : (l₁ ++ l₂).find? p = some x := by
  induction l₁ with
  | nil => cases h
  | cons y t ih =>
    simp only [List.find?] at h ⊢
    cases hy : p y with
    | true => rw [hy] at h; exact h
    | false =>
      rw [hy] at h
      exact ih h

theorem hasCol_false_find?_none {df : DF} {c : String}
    (h : df.hasCol c = false) :
    df.cols.find? (fun p => decide (p.1 = c)) = none := by
  rw [List.find?_eq_none]
  intro p hp
  intro hdec
  have : df.hasCol c = true := by
    unfold hasCol
    rw [List.any_eq_true]
    exact ⟨p, hp, hdec⟩
  rw [this] at h
  cases h

theorem getColD_eq_nil_of_not_hasCol {df : DF} {c : String}
    (h : df.hasCol c = false) : df.getColD c = [] := by
  unfold getColD getCol?
  rw [hasCol_false_find?_none h]
  rfl

theorem getColD_setCol_self (df : DF) (c : String) (v : List Cell) :
    (df.setCol c v).getColD c = v := by
  unfold setCol
  by_cases h : df.hasCol c = true
  · rw [if_pos h]
    unfold getColD getCol?
    have : ∀ cols : List (String × List Cell), cols.any (fun p => decide (p.1 = c)) = true →
        (cols.map (fun p => if p.1 = c then (c, v) else p)).find?
          (fun p => decide (p.1 = c)) = some (c, v) := by
      intro cols
      induction cols with
      | nil => intro h; cases h
      | cons x t ih =>
        intro hany
        by_cases hx : x.1 = c
        · rw [List.map_cons, if_pos hx,
            find?_label_cons_pos _ (show ((c, v) : String × List Cell).1 = c from rfl)]
        · rw [List.map_cons, if_neg hx, find?_label_cons_neg _ hx]
          simp only [List.any_cons, decide_eq_false hx, Bool.false_or] at hany
          exact ih hany
    rw [this df.cols h]
    rfl
  · rw [if_neg h]
    unfold getColD getCol?
    rw [find?_append_none (hasCol_false_find?_none (Bool.eq_false_iff.mpr h))]
    rw [find?_label_cons_pos _ (show ((c, v) : String × List Cell).1 = c from rfl)]
    rfl

theorem getColD_setCol_ne (df : DF) (c c' : String) (v : List Cell)
    (h : c' ≠ c) : (df.setCol c v).getColD c' = df.getColD c' := by
  unfold setCol
  by_cases hc : df.hasCol c = true
  · rw [if_pos hc]
    unfold getColD getCol?
    have : ∀ cols : List (String × List Cell),
        (cols.map (fun p => if p.1 = c then (c, v) else p)).find?
          (fun p => decide (p.1 = c')) = cols.find? (fun p => decide (p.1 = c')) := by
      intro cols
      induction cols with
      | nil => rfl
      | cons x t ih =>
        by_cases hx : x.1 = c
        · rw [List.map_cons, if_pos hx,
            find?_label_cons_neg _ (fun he : c = c' => h he.symm),
            find?_label_cons_neg _ (fun he : x.1 = c' => h ((hx ▸ he : c = c')).symm)]
          exact ih
        · rw [List.map_cons, if_neg hx]
          by_cases hd : x.1 = c'
          · rw [find?_label_cons_pos _ hd, find?_label_cons_pos _ hd]
          · rw [find?_label_cons_neg _ hd, find?_label_cons_neg _ hd]
            exact ih
    rw [this df.cols]
  · rw [if_neg hc]
    unfold getColD getCol?
    cases hf : df.cols.find? (fun p => decide (p.1 = c')) with
    | some p => rw [find?_some_append hf]
    | none =>
      rw [find?_append_none hf,
        find?_label_cons_neg _ (show ¬((c, v) : String × List Cell).1 = c'
          from fun he => h he.symm)]
      rfl

theorem colNames_setCol (df : DF) (c : String) (v : List Cell) :
    (df.setCol c v).colNames =
      if df.hasCol c = true then df.colNames else df.colNames ++ [c] := by
  unfold setCol colNames
  by_cases hc : df.hasCol c = true
  · rw [if_pos hc, if_pos hc, List.map_map]
    apply List.map_congr_left
    intro p _
    by_cases hx : p.1 = c
    · simp [Function.comp, hx]
    · simp [Function.comp, hx]
  · rw [if_neg hc, if_neg hc]
    simp

theorem hasCol_setCol (df : DF) (c t : String) (v : List Cell) :
    (df.setCol c v).hasCol t = true ↔ df.hasCol t = true ∨ t = c := by
  rw [hasCol_iff_mem_colNames, hasCol_iff_mem_colNames, colNames_setCol]
  by_cases hc : df.hasCol c = true
  · rw [if_pos hc]
    constructor
    · exact Or.inl
    · rintro (h | rfl)
      · exact h
      · exact (hasCol_iff_mem_colNames df t).mp hc
  · rw [if_neg hc]
    rw [List.mem_append, List.mem_singleton]

theorem hasCol_renameCol {df : DF} {a b t : String}
    (h : (df.renameCol a b).hasCol t = true) :
    df.hasCol t = true ∨ t = b := by
  have hmem := (hasCol_iff_mem_colNames _ t).mp h
  unfold renameCol colNames at hmem
  rw [List.map_map] at hmem
  rcases List.mem_map.mp hmem with ⟨p, hp, he⟩
  by_cases hx : p.1 = a
  · right
    simp only [Function.comp, if_pos hx] at he
    exact he.symm
  · left
    rw [hasCol_iff_mem_colNames]
    refine List.mem_map.mpr ⟨p, hp, ?_⟩
    simpa [Function.comp, if_neg hx] using he

theorem selectCols?_eq_some {df out : DF} {names : List String}
    (h : df.selectCols? names = some out) :
    out.nrow = df.nrow ∧ out.colNames = names ∧
      ∀ c ∈ names, out.getColD c = df.getColD c := by
  unfold selectCols? at h
  split at h
  · rename_i hall
    injection h with h
    subst h
    refine ⟨rfl, ?_, ?_⟩
    · show (names.map (fun c => (c, df.getColD c))).map Prod.fst = names
      rw [List.map_map,
        show (Prod.fst ∘ fun c => (c, df.getColD c)) = id from rfl, List.map_id]
    · intro c hc
      have key : ∀ ns : List String, c ∈ ns →
          (ns.map (fun n => (n, df.getColD n))).find? (fun p => decide (p.1 = c)) =
            some (c, df.getColD c) := by
        intro ns
        induction ns with
        | nil => intro h; cases h
        | cons n t ih =>
          intro hmem
          by_cases hn : n = c
          · subst hn
            rw [List.map_cons,
              find?_label_cons_pos _ (show (n, df.getColD n).1 = n from rfl)]
          · rw [List.map_cons, find?_label_cons_neg _ hn]
            exact ih (by
              rcases List.mem_cons.mp hmem with rfl | h2
              · exact absurd rfl hn
              · exact h2)
      show ((((names.map (fun n => (n, df.getColD n))).find?
          (fun p => decide (p.1 = c))).map Prod.snd).getD []) = df.getColD c
      rw [key names hc]
      rfl
  · cases h

theorem selectCols?_eq_none {df : DF} {names : List String} {t : String}
    (ht : t ∈ names) (h : df.hasCol t = false) :
    df.selectCols? names = none := by
  unfold selectCols?
  rw [if_neg]
  intro hall
  have := List.all_eq_true.mp hall t ht
  rw [h] at this
  cases this

end DF

theorem stripChars_eq_nil_iff (l : List Char) :
    stripChars l = [] ↔ ∀ c ∈ l, pyIsSpace c := by
  unfold stripChars
  rw [List.reverse_eq_nil_iff, List.dropWhile_eq_nil_iff]
  constructor
  · intro h c hc
    rw [← List.takeWhile_append_dropWhile (p := pyIsSpace) (l := l)] at hc
    rcases List.mem_append.mp hc with h1 | h2
    · exact List.mem_takeWhile_imp h1
    · exact h c (List.mem_reverse.mpr h2)
  · intro h c hc
    exact h c ((List.dropWhile_sublist (p := pyIsSpace)).mem (List.mem_reverse.mp hc))

theorem pyStrip_eq_empty_iff (s : String) :
    pyStrip s = "" ↔ ∀ c ∈ s.data, pyIsSpace c := by
  constructor
  · intro h
    have : stripChars s.data = [] := congrArg String.data h
    exact (stripChars_eq_nil_iff s.data).mp this
  · intro h
    show (⟨stripChars s.data⟩ : String) = ⟨[]⟩
    exact congrArg String.mk ((stripChars_eq_nil_iff s.data).mpr h)

theorem lengthGuard_length (n : Nat) (r : List Cell) :
    (lengthGuard n r).length = n := by
  unfold lengthGuard
  split
  · assumption
  · exact List.length_replicate n none

theorem maskFilter_cons_true (m : List Bool) (x : Cell) (l : List Cell) :
    maskFilter (true :: m) (x :: l) = x :: maskFilter m l := rfl

theorem maskFilter_cons_false (m : List Bool) (x : Cell) (l : List Cell) :
    maskFilter (false :: m) (x :: l) = maskFilter m l := rfl

theorem colNames_filterRows (df : DF) (m : List Bool) :
    (filterRows df m).colNames = df.colNames := by
  unfold filterRows DF.colNames
  rw [List.map_map]
  rfl

theorem hasCol_filterRows (df : DF) (m : List Bool) (c : String) :
    (filterRows df m).hasCol c = df.hasCol c := by
  unfold filterRows DF.hasCol
  rw [List.any_map]
  rfl

theorem nrow_filterRows (df : DF) (m : List Bool) :
    (filterRows df m).nrow = m.count true := rfl

theorem getColD_filterRows (df : DF) (m : List Bool) (c : String) :
    (filterRows df m).getColD c = maskFilter m (df.getColD c) := by
  unfold filterRows DF.getColD DF.getCol?
  dsimp only
  rw [find?_map_keyed (fun p => maskFilter m p.2) df.cols c]
  cases hf : df.cols.find? (fun p => decide (p.1 = c)) with
  | none => rfl
  | some p => rfl

theorem DF.hasCol_true_find?_some {df : DF} {c : String}
    (h : df.hasCol c = true) :
    ∃ p, df.cols.find? (fun p => decide (p.1 = c)) = some p ∧ p.1 = c := by
  unfold DF.hasCol at h
  rcases List.any_eq_true.mp h with ⟨p, hp, he⟩
  have hs : (df.cols.find? (fun p => decide (p.1 = c))).isSome :=
    List.find?_isSome.mpr ⟨p, hp, he⟩
  rcases Option.isSome_iff_exists.mp hs with ⟨q, hq⟩
  have hpred := List.find?_some hq
  exact ⟨q, hq, of_decide_eq_true hpred⟩

theorem colNames_concat2 (a b : DF) : (concat2 a b).colNames = a.colNames := by
  unfold concat2 DF.colNames
  rw [List.map_map]
  rfl

theorem hasCol_concat2 (a b : DF) (c : String) :
    (concat2 a b).hasCol c = a.hasCol c := by
  unfold concat2 DF.hasCol
  rw [List.any_map]
  rfl

theorem getColD_concat2 {a : DF} (b : DF) {c : String} (h : a.hasCol c = true) :
    (concat2 a b).getColD c = a.getColD c ++ b.getColD c := by
  rcases DF.hasCol_true_find?_some h with ⟨p, hp, hp1⟩
  show ((((a.cols.map (fun p => (p.1, p.2 ++ b.getColD p.1))).find?
      (fun q => decide (q.1 = c))).map Prod.snd).getD []) =
    (((a.cols.find? (fun q => decide (q.1 = c))).map Prod.snd).getD []) ++ b.getColD c
  rw [find?_map_keyed (fun p => p.2 ++ b.getColD p.1) a.cols c, hp]
  show p.2 ++ b.getColD p.1 = p.2 ++ b.getColD c
  rw [hp1]

theorem mem_concatDFs_col {parts : List DF} {name : String} {c : Cell}
    (h : c ∈ (concatDFs parts).getColD name) :
    ∃ d ∈ parts, c ∈ d.getColD name := by
  induction parts with
  | nil => simp [concatDFs, DF.getColD, DF.getCol?, List.find?] at h
  | cons d rest ih =>
    rw [show concatDFs (d :: rest) = concat2 d (concatDFs rest) from rfl] at h
    by_cases hd : d.hasCol name = true
    · rw [getColD_concat2 _ hd] at h
      rcases List.mem_append.mp h with h1 | h2
      · exact ⟨d, List.mem_cons_self d rest, h1⟩
      · rcases ih h2 with ⟨e, he, hc⟩
        exact ⟨e, List.mem_cons_of_mem d he, hc⟩
    · have hfalse : (concat2 d (concatDFs rest)).hasCol name = false := by
        rw [hasCol_concat2]
        exact Bool.eq_false_iff.mpr hd
      rw [DF.getColD_eq_nil_of_not_hasCol hfalse] at h
      cases h

theorem mem_foldl_uniq [DecidableEq α] (a : α) (l acc : List α) :
    (a ∈ l.foldl uniqStep acc) ↔ a ∈ acc ∨ a ∈ l := by
  induction l generalizing acc with
  | nil => simp
  | cons x t ih =>
    rw [List.foldl_cons, ih]
    unfold uniqStep
    by_cases hx : x ∈ acc
    · rw [if_pos hx]
      constructor
      · rintro (h | h)
        · exact Or.inl h
        · exact Or.inr (List.mem_cons_of_mem x h)
      · rintro (h | h)
        · exact Or.inl h
        · rcases List.mem_cons.mp h with rfl | h2
          · exact Or.inl hx
          · exact Or.inr h2
    · rw [if_neg hx]
      simp only [List.mem_append, List.mem_singleton, List.mem_cons]
      tauto

theorem mem_uniqFS [DecidableEq α] (a : α) (l : List α) :
    a ∈ uniqFS l ↔ a ∈ l := by
  unfold uniqFS
  rw [mem_foldl_uniq]
  simp

theorem dedupMaskGo_length (keys : List Cell) :
    ∀ seen, (dedupMaskGo seen keys).length = keys.length := by
  induction keys with
  | nil => intro seen; rfl
  | cons k rest ih =>
    intro seen
    unfold dedupMaskGo
    by_cases hk : k ∈ seen
    · rw [if_pos hk]
      simp [ih]
    · rw [if_neg hk]
      simp [ih]

theorem uniq_step_spec (keys : List Cell) :
    ∀ seen, keys.foldl uniqStep seen =
      seen ++ maskFilter (dedupMaskGo seen keys) keys := by
  induction keys with
  | nil =>
    intro seen
    simp [dedupMaskGo, maskFilter_nil_mask]
  | cons k rest ih =>
    intro seen
    rw [List.foldl_cons]
    by_cases hk : k ∈ seen
    · have h1 : uniqStep seen k = seen := by
        unfold uniqStep
        rw [if_pos hk]
      have h2 : dedupMaskGo seen (k :: rest) = false :: dedupMaskGo seen rest := by
        simp only [dedupMaskGo]
        rw [if_pos hk]
      rw [h1, h2, maskFilter_cons_false]
      exact ih seen
    · have h1 : uniqStep seen k = seen ++ [k] := by
        unfold uniqStep
        rw [if_neg hk]
      have h2 : dedupMaskGo seen (k :: rest) =
          true :: dedupMaskGo (seen ++ [k]) rest := by
        simp only [dedupMaskGo]
        rw [if_neg hk]
      rw [h1, h2, maskFilter_cons_true, ih (seen ++ [k]),
        List.append_assoc, List.singleton_append]

theorem uniqFS_keys_eq_maskFilter (keys : List Cell) :
    uniqFS keys = maskFilter (dedupMask keys) keys := by
  unfold uniqFS
  rw [uniq_step_spec keys []]
  rfl

theorem uniqFS_length_eq_count (keys : List Cell) :
    (uniqFS keys).length = (dedupMask keys).count true := by
  rw [uniqFS_keys_eq_maskFilter]
  exact maskFilter_length_eq_count (dedupMaskGo_length keys [])

theorem dedupMaskGo_all_true (keys : List Cell) :
    ∀ seen, keys.Nodup → (∀ k ∈ keys, k ∉ seen) →
      dedupMaskGo seen keys = List.replicate keys.length true := by
  induction keys with
  | nil => intro seen _ _; rfl
  | cons k rest ih =>
    intro seen hnd hdis
    unfold dedupMaskGo
    rw [if_neg (hdis k (List.mem_cons_self k rest))]
    rw [List.length_cons, List.replicate_succ]
    congr 1
    apply ih (seen ++ [k]) (List.Nodup.of_cons hnd)
    intro x hx
    rw [List.mem_append, List.mem_singleton]
    rintro (hxs | rfl)
    · exact hdis x (List.mem_cons_of_mem k hx) hxs
    · exact (List.nodup_cons.mp hnd).1 hx

theorem uniqFS_of_nodup (keys : List Cell) (h : keys.Nodup) :
    uniqFS keys = keys := by
  rw [uniqFS_keys_eq_maskFilter]
  unfold dedupMask
  rw [dedupMaskGo_all_true keys [] h (by simp), ← List.length_reverse]
  rw [List.length_reverse]
  exact maskFilter_replicate_true keys

theorem dedupMaskGo_getD (keys : List Cell) :
    ∀ seen i, i < keys.length →
      (((dedupMaskGo seen keys).getD i false = true) ↔
        keys.getD i none ∉ seen ++ keys.take i) := by
  induction keys with
  | nil =>
    intro seen i hi
    simp at hi
  | cons k rest ih =>
    intro seen i hi
    unfold dedupMaskGo
    cases i with
    | zero =>
      by_cases hk : k ∈ seen
      · rw [if_pos hk]
        simp [hk]
      · rw [if_neg hk]
        simp [hk]
    | succ j =>
      have hj : j < rest.length := by
        simpa using Nat.lt_of_succ_lt_succ (by simpa using hi)
      by_cases hk : k ∈ seen
      · rw [if_pos hk, List.getD_cons_succ, List.getD_cons_succ,
          ih seen j hj, List.take_succ_cons]
        apply not_congr
        simp only [List.mem_append, List.mem_cons]
        constructor
        · rintro (h | h)
          · exact Or.inl h
          · exact Or.inr (Or.inr h)
        · rintro (h | rfl | h)
          · exact Or.inl h
          · exact Or.inl hk
          · exact Or.inr h
      · rw [if_neg hk, List.getD_cons_succ, List.getD_cons_succ,
          ih (seen ++ [k]) j hj, List.take_succ_cons]
        apply not_congr
        simp only [List.mem_append, List.mem_cons, List.mem_singleton]
        tauto

theorem hasCol_dedupByKey (pdf : DF) (key c : String) :
    (dedupByKey pdf key).hasCol c = pdf.hasCol c := by
  unfold dedupByKey
  simp only []
  split
  · rfl
  · exact hasCol_filterRows pdf _ c

theorem nrow_buildPatientOut (toDT : String → Option String)
    (rules : List MappingRule) (dd : DF) :
    (buildPatientOut toDT rules dd).nrow = dd.nrow := by
  unfold buildPatientOut
  suffices h : ∀ acc : DF, (rules.foldl (patientLoopStep toDT dd) acc).nrow = acc.nrow by
    exact h _
  induction rules with
  | nil => intro acc; rfl
  | cons r t ih =>
    intro acc
    rw [List.foldl_cons, ih]
    unfold patientLoopStep
    split
    · split
      · exact DF.nrow_setCol acc _ _
      · rfl
    · exact DF.nrow_setCol acc _ _

theorem hasCol_buildPatientOut {toDT : String → Option String}
    {rules : List MappingRule} {dd : DF} {t : String}
    (h : (buildPatientOut toDT rules dd).hasCol t = true) :
    ∃ r ∈ rules, r.targetCol = t ∧
      (r.inputKey = some "Patient_Details" ∨ isBlankCell r.inputCol = true) := by
  unfold buildPatientOut at h
  suffices key : ∀ acc : DF,
      (rules.foldl (patientLoopStep toDT dd) acc).hasCol t = true →
      acc.hasCol t = true ∨ ∃ r ∈ rules, r.targetCol = t ∧
        (r.inputKey = some "Patient_Details" ∨ isBlankCell r.inputCol = true) by
    rcases key _ h with hacc | hex
    · unfold DF.hasCol at hacc
      simp at hacc
    · exact hex
  clear h
  induction rules with
  | nil => intro acc h; exact Or.inl h
  | cons r rest ih =>
    intro acc h
    rw [List.foldl_cons] at h
    rcases ih _ h with hstep | ⟨r', hr', ht', hk'⟩
    · unfold patientLoopStep at hstep
      split at hstep
      · rename_i hkey
        split at hstep
        · rename_i hblank
          rcases (DF.hasCol_setCol acc r.targetCol t _).mp hstep with hacc | rfl
          · exact Or.inl hacc
          · exact Or.inr ⟨r, List.mem_cons_self r rest, rfl, Or.inr hblank⟩
        · exact Or.inl hstep
      · rename_i hkey
        rcases (DF.hasCol_setCol acc r.targetCol t _).mp hstep with hacc | rfl
        · exact Or.inl hacc
        · refine Or.inr ⟨r, List.mem_cons_self r rest, rfl, Or.inl ?_⟩
          by_contra hne
          exact hkey hne
    · exact Or.inr ⟨r', List.mem_cons_of_mem r hr', ht', hk'⟩

/-! ## Claim theorems: transformation registry -/

/-- C7: `transform_sex` is total and maps case-insensitively: every output is
`"1"`, `"2"` or `"9"`; `M`/`m`/`1` give `"1"`, `F`/`f`/`2` give `"2"`, and
any other cell — including the empty string and a missing value — gives
`"9"`. -/
theorem transform_sex_total_cases (c : Cell) :
    (transformSexCell c = "1" ∨ transformSexCell c = "2" ∨ transformSexCell c = "9") ∧
    ((c = some "M" ∨ c = some "m" ∨ c = some "1") → transformSexCell c = "1") ∧
    ((c = some "F" ∨ c = some "f" ∨ c = some "2") → transformSexCell c = "2") ∧
    (∀ s, c = some s → pyUpper s ∉ (["M", "F", "1", "2"] : List String) →
      transformSexCell c = "9") ∧
    (c = none → transformSexCell c = "9") ∧
    (c = some "" → transformSexCell c = "9") := by
  refine ⟨?_, ?_, ?_, ?_, ?_, ?_⟩
  · unfold transformSexCell sexLookup
    split_ifs <;> simp
  · rintro (rfl | rfl | rfl) <;> decide
  · rintro (rfl | rfl | rfl) <;> decide
  · rintro s rfl hmem
    unfold transformSexCell sexLookup cellToStr
    split_ifs with h1 h2 h3 h4
    · exact absurd (by simp [h1]) hmem
    · exact absurd (by simp [h2]) hmem
    · exact absurd (by simp [h3]) hmem
    · exact absurd (by simp [h4]) hmem
    · rfl
  · rintro rfl; decide
  · rintro rfl; decide

/-- Witness for C7 at concrete inputs. -/
theorem transform_sex_total_cases_witness :
    transformSexCell (some "m") = "1" ∧ transformSexCell (some "X") = "9" ∧
    transformSexCell none = "9" :=
  ⟨(transform_sex_total_cases (some "m")).2.1 (Or.inr (Or.inl rfl)),
   (transform_sex_total_cases (some "X")).2.2.2.1 "X" rfl (by decide),
   (transform_sex_total_cases none).2.2.2.2.1 rfl⟩

/-- C8: `determine_dx_version` returns `"S"` exactly on present cells that
are not whitespace-only, and `""` on missing, empty, or whitespace-only
cells; in particular `determine_dx_version("195967001") = "S"` and
`determine_dx_version("") = ""`. -/
theorem determine_dx_version_spec (s : String) :
    ((∀ c ∈ s.data, pyIsSpace c) → determineDxVersionCell (some s) = "") ∧
    ((¬ ∀ c ∈ s.data, pyIsSpace c) → determineDxVersionCell (some s) = "S") ∧
    determineDxVersionCell none = "" ∧
    determineDxVersionCell (some "195967001") = "S" ∧
    determineDxVersionCell (some "") = "" := by
  refine ⟨?_, ?_, rfl, by decide, rfl⟩
  · intro h
    have he : determineDxVersionCell (some s) = if pyStrip s = "" then "" else "S" := rfl
    rw [he, if_pos ((pyStrip_eq_empty_iff s).mpr h)]
  · intro h
    have he : determineDxVersionCell (some s) = if pyStrip s = "" then "" else "S" := rfl
    rw [he, if_neg (fun hs => h ((pyStrip_eq_empty_iff s).mp hs))]

/-- Witness for C8 at concrete inputs. -/
theorem determine_dx_version_spec_witness :
    determineDxVersionCell (some " ") = "" ∧
    determineDxVersionCell (some "195967001") = "S" :=
  ⟨(determine_dx_version_spec " ").1 (by decide),
   (determine_dx_version_spec "195967001").2.1 (by decide)⟩

/-- C5: `_apply_transformation` is total (its body catches every exception
and its error paths return the all-`NaN` series), always yields a column of
exactly the source frame's row count, and renders the column all-missing —
hence all-empty in the serialized output — whenever the transform name is
not registered. -/
theorem apply_transformation_total_length (toDT : String → Option String)
    (key : String) (df : DF) (idx : List Cell) (srcCol : Option String) :
    (applyTransformation toDT key df idx srcCol).length = df.nrow ∧
    (key ∉ TRANSFORMATIONS →
      applyTransformation toDT key df idx srcCol = List.replicate df.nrow none) ∧
    (key ∉ TRANSFORMATIONS →
      (applyTransformation toDT key df idx srcCol).all rendersEmpty = true) := by
  refine ⟨?_, ?_, ?_⟩
  · unfold applyTransformation
    split
    · exact List.length_replicate df.nrow none
    · cases srcCol with
      | some c =>
        by_cases hc : df.hasCol c
        · simp only [hc, if_true]
          exact lengthGuard_length _ _
        · simp only [hc, if_false]
          exact List.length_replicate df.nrow none
      | none =>
        cases applyToIndex key idx with
        | some out => exact lengthGuard_length _ _
        | none => exact List.length_replicate df.nrow none
  · intro h
    unfold applyTransformation
    rw [if_pos h]
  · intro h
    unfold applyTransformation
    rw [if_pos h]
    simp [rendersEmpty]

/-- Witness for C5 at a concrete unregistered transform name. -/
theorem apply_transformation_total_length_witness :
    applyTransformation (fun _ => none) "bogus" ⟨2, [("A", [some "x", none])]⟩
      [some "0", some "1"] (some "A") = List.replicate 2 none :=
  (apply_transformation_total_length (fun _ => none) "bogus"
    ⟨2, [("A", [some "x", none])]⟩ [some "0", some "1"] (some "A")).2.1 (by decide)

/-! ## Claim theorems: column resolution -/

/-- C4: behaviour of the `determine_dx_version` cross-column dependency.
With the dependency available, the transform is fed the `dx_cd_1` rule's
source column (`Code`), not the rule's own column (`Other`): the result is
`[S, '']`, what `determine_dx_version` gives on `Code`, and differs from
what the own column would give.  But when the dependency is absent and the
rule's own `InputColumn` is blank, the claimed skip-and-emit-empty does
*not* happen: `is_generation_transform` (`src/processing.py:310`) lets the
call through with the frame's index, `pd.Index` has no `.apply`, the
`AttributeError` is caught, and the column comes back all-missing (`NaN`)
instead of the empty strings the skip path emits — contradicting the
source's own `# Prevent transform call` comment at `src/processing.py:295`.
Only when the own `InputColumn` is non-blank does the skip path run and emit
`''`. -/
theorem dx_version_dependency_behavior :
    resolveMultiCol (fun _ => none) "determine_dx_version" "dx_cd_1"
      [fixDxCdRule, fixDxVerRule] fixDxVerRule fixDxDf [some "0", some "1"]
      = [some "S", some ""] ∧
    (fixDxDf.getColD "Other").map (fun c => some (determineDxVersionCell c))
      = [some "", some "S"] ∧
    resolveMultiCol (fun _ => none) "determine_dx_version" "dx_cd_1"
      [fixDxVerBlankRule] fixDxVerBlankRule fixDxDf1 [some "0"]
      = [none] ∧
    resolveMultiCol (fun _ => none) "determine_dx_version" "dx_cd_1"
      [fixDxVerOwnRule] fixDxVerOwnRule fixDxDf1 [some "0"]
      = [some ""] ∧
    ([none] : List Cell) ≠ [some ""] := by
  refine ⟨by decide, by decide, by decide, by decide, by decide⟩

/-- C6: a rule with a present, non-blank `InputColumn` naming an existing
column and no transform copies that column verbatim — in the patient-data
resolver and in both multi-source resolvers. -/
theorem direct_copy_identity (toDT : String → Option String)
    (rule : MappingRule) (T : DF) (group : List MappingRule) (idx : List Cell)
    (ic : String) (hic : rule.inputCol = some ic) (hb : pyStrip ic ≠ "")
    (hcol : T.hasCol (pyStrip ic)) (ht : rule.transformKey = "") :
    resolvePatientCol toDT rule T = T.getColD (pyStrip ic) ∧
    resolveMultiCol toDT "determine_dx_version" "dx_cd_1" group rule T idx
      = T.getColD (pyStrip ic) ∧
    resolveMultiCol toDT "determine_rx_code_type" "rx_cd" group rule T idx
      = T.getColD (pyStrip ic) := by
  have hblank : isBlankCell rule.inputCol = false := by
    rw [hic]
    simp [isBlankCell, hb]
  refine ⟨?_, ?_, ?_⟩
  · unfold resolvePatientCol
    rw [hblank]
    simp [hic, cellToStr, hcol, ht]
  · unfold resolveMultiCol
    rw [ht]
    simp [hblank, hic, cellToStr, hcol, isBlankCell, hb]
  · unfold resolveMultiCol
    rw [ht]
    simp [hblank, hic, cellToStr, hcol, isBlankCell, hb]

/-- Witness for C6 at a concrete rule and table. -/
theorem direct_copy_identity_witness :
    resolvePatientCol (fun _ => none)
      ⟨some "Patient_Details", some "Age", "patient_data", "age", "", ""⟩
      ⟨1, [("PatientID", [some "1"]), ("Age", [some "42"])]⟩
      = [some "42"] := by
  have h := direct_copy_identity (fun _ => none)
    ⟨some "Patient_Details", some "Age", "patient_data", "age", "", ""⟩
    ⟨1, [("PatientID", [some "1"]), ("Age", [some "42"])]⟩ [] [] "Age"
    rfl (by decide) (by decide) rfl
  rw [h.1]
  decide

/-! ## Patient-generator structure lemmas and claims -/

theorem mem_replaceFirst_of_ne [DecidableEq α] {l : List α} {t a b : α}
    (ht : t ∈ l) (hne : t ≠ a) : t ∈ replaceFirst l a b := by
  induction l with
  | nil => cases ht
  | cons x xs ih =>
    unfold replaceFirst
    by_cases hx : x = a
    · rw [if_pos hx]
      rcases List.mem_cons.mp ht with rfl | h2
      · exact absurd hx hne
      · exact List.mem_cons_of_mem b h2
    · rw [if_neg hx]
      rcases List.mem_cons.mp ht with rfl | h2
      · exact List.mem_cons_self t _
      · exact List.mem_cons_of_mem x (ih h2)

/-- Every success path of the patient generator preserves the de-duplicated
frame's row count. -/
theorem generatePatientData_nrow {toDT : String → Option String}
    {inputs : List (String × DF)} {mapping : List MappingRule} {out pdf : DF}
    (h : generatePatientData toDT inputs mapping = some out)
    (hp : lookupDF inputs "Patient_Details" = some pdf) :
    out.nrow = (dedupByKey pdf MERGE_KEY).nrow := by
  unfold generatePatientData at h
  rw [hp] at h
  simp only [] at h
  split at h
  · cases h
  · split at h
    · cases h
    · split at h
      · rw [(DF.selectCols?_eq_some h).1, nrow_buildPatientOut]
      · split at h
        · split at h
          · rw [(DF.selectCols?_eq_some h).1, DF.nrow_setCol, nrow_buildPatientOut]
          · rw [(DF.selectCols?_eq_some h).1, DF.nrow_renameCol, nrow_buildPatientOut]
        · rw [(DF.selectCols?_eq_some h).1, nrow_buildPatientOut]

/-- C9: when the patient generator succeeds, its output has exactly one row
per distinct merge-key identifier of the `Patient_Details` table: the row
count equals the number of distinct identifiers, the de-duplicated frame
retains the distinct identifiers in first-seen order, and the
de-duplication mask keeps exactly the positions that are first occurrences
of their key. -/
theorem patient_dedup_keep_first (toDT : String → Option String)
    (inputs : List (String × DF)) (mapping : List MappingRule) (out pdf : DF)
    (h : generatePatientData toDT inputs mapping = some out)
    (hp : lookupDF inputs "Patient_Details" = some pdf)
    (hw : (pdf.getColD MERGE_KEY).length = pdf.nrow) :
    out.nrow = (uniqFS (pdf.getColD MERGE_KEY)).length ∧
    (dedupByKey pdf MERGE_KEY).getColD MERGE_KEY =
      uniqFS (pdf.getColD MERGE_KEY) ∧
    (∀ i, i < (pdf.getColD MERGE_KEY).length →
      (((dedupMask (pdf.getColD MERGE_KEY)).getD i false = true) ↔
        (pdf.getColD MERGE_KEY).getD i none ∉ (pdf.getColD MERGE_KEY).take i)) := by
  refine ⟨?_, ?_, ?_⟩
  · rw [generatePatientData_nrow h hp]
    unfold dedupByKey
    simp only []
    split
    · rename_i hnd
      rw [uniqFS_of_nodup _ hnd, hw]
    · rw [nrow_filterRows, uniqFS_length_eq_count]
  · unfold dedupByKey
    simp only []
    split
    · rename_i hnd
      rw [uniqFS_of_nodup _ hnd]
    · rw [getColD_filterRows, uniqFS_keys_eq_maskFilter]
  · intro i hi
    have hgo := dedupMaskGo_getD (pdf.getColD MERGE_KEY) [] i hi
    unfold dedupMask
    simpa using hgo

/-- Witness for C9: a table with the duplicate identifier `1` yields exactly
one output row. -/
theorem patient_dedup_keep_first_witness :
    (⟨1, [("patient_id", [some "1"])]⟩ : DF).nrow =
      (uniqFS ((⟨2, [("PatientID", [some "1", some "1"])]⟩ : DF).getColD
        MERGE_KEY)).length :=
  (patient_dedup_keep_first (fun _ => none)
    [("Patient_Details", ⟨2, [("PatientID", [some "1", some "1"])]⟩)]
    [⟨some "Patient_Details", some "PatientID", "patient_data", "patient_id", "", ""⟩]
    ⟨1, [("patient_id", [some "1"])]⟩ ⟨2, [("PatientID", [some "1", some "1"])]⟩
    (by decide) rfl (by decide)).1

/-- C2 (amended): the first column of a successful patient-data output is
determined by the three-case rule, but in the second case the inserted
merge-key column keeps its original name `PatientID` — it is not renamed to
`patient_id`: (1) a mapped target literally named `patient_id` is moved
first; (2) else, when the merge-key column was not generated, the original
key column is inserted first *under its own name* and carries the
de-duplicated identifiers; (3) else the column named like the merge key is
renamed to `patient_id` and put first. -/
theorem patient_first_column_three_cases (toDT : String → Option String)
    (inputs : List (String × DF)) (mapping : List MappingRule) (out pdf : DF)
    (h : generatePatientData toDT inputs mapping = some out)
    (hp : lookupDF inputs "Patient_Details" = some pdf) :
    (("patient_id" ∈ uniqFS ((mapping.filter
        (fun r => r.targetFile = "patient_data")).map MappingRule.targetCol)) →
      out.colNames.head? = some "patient_id") ∧
    (("patient_id" ∉ uniqFS ((mapping.filter
        (fun r => r.targetFile = "patient_data")).map MappingRule.targetCol)) →
      (buildPatientOut toDT (mapping.filter (fun r => r.targetFile = "patient_data"))
        (dedupByKey pdf MERGE_KEY)).hasCol MERGE_KEY = false →
      out.colNames.head? = some MERGE_KEY ∧
        out.getColD MERGE_KEY = (dedupByKey pdf MERGE_KEY).getColD MERGE_KEY) ∧
    (("patient_id" ∉ uniqFS ((mapping.filter
        (fun r => r.targetFile = "patient_data")).map MappingRule.targetCol)) →
      (buildPatientOut toDT (mapping.filter (fun r => r.targetFile = "patient_data"))
        (dedupByKey pdf MERGE_KEY)).hasCol MERGE_KEY = true →
      out.colNames.head? = some "patient_id") := by
  unfold generatePatientData at h
  rw [hp] at h
  simp only [] at h
  split at h
  · cases h
  · rename_i hpcol
    split at h
    · cases h
    · split at h
      · rename_i hpid
        refine ⟨fun _ => ?_, fun hn _ => absurd hpid hn, fun hn _ => absurd hpid hn⟩
        rw [(DF.selectCols?_eq_some h).2.1]
        unfold moveFront
        rw [if_pos hpid]
        rfl
      · rename_i hpid
        split at h
        · split at h
          · rename_i hddcol hnocol
            have hfalse : (buildPatientOut toDT
                (mapping.filter (fun r => r.targetFile = "patient_data"))
                (dedupByKey pdf MERGE_KEY)).hasCol MERGE_KEY = false := by
              simpa using hnocol
            refine ⟨fun hmem => absurd hmem hpid, fun _ _ => ?_,
              fun _ hcol => ?_⟩
            · constructor
              · rw [(DF.selectCols?_eq_some h).2.1]
                rfl
              · rw [(DF.selectCols?_eq_some h).2.2 MERGE_KEY
                  (List.mem_cons_self MERGE_KEY _), DF.getColD_setCol_self]
            · rw [hfalse] at hcol
              cases hcol
          · rename_i hddcol hnocol
            have htrue : (buildPatientOut toDT
                (mapping.filter (fun r => r.targetFile = "patient_data"))
                (dedupByKey pdf MERGE_KEY)).hasCol MERGE_KEY = true := by
              simpa using hnocol
            refine ⟨fun hmem => absurd hmem hpid, fun _ hcol => ?_,
              fun _ _ => ?_⟩
            · rw [htrue] at hcol
              cases hcol
            · rw [(DF.selectCols?_eq_some h).2.1]
              rfl
        · rename_i hddcol
          exfalso
          rw [hasCol_dedupByKey] at hddcol
          have : pdf.hasCol MERGE_KEY = true := by
            simpa using hpcol
          exact hddcol this

/-- Witness for C2 (amended), case (1): a mapping with a `patient_id` target
puts that column first. -/
theorem patient_first_column_three_cases_witness :
    (⟨1, [("patient_id", [some "1"])]⟩ : DF).colNames.head? = some "patient_id" :=
  (patient_first_column_three_cases (fun _ => none)
    [("Patient_Details", ⟨1, [("PatientID", [some "1"])]⟩)]
    [⟨some "Patient_Details", some "PatientID", "patient_data", "patient_id", "", ""⟩]
    ⟨1, [("patient_id", [some "1"])]⟩ ⟨1, [("PatientID", [some "1"])]⟩
    (by decide) rfl).1 (by decide)

/-- C10 (amended): a `patient_data` rule reading a non-blank source column
from a dataset other than `Patient_Details` is skipped, and when every rule
for its target column is skipped in this way *and the target column is not
the merge-key name*, the whole generation fails: the column stays in the
declared list, is never generated, and final assembly returns `None`.  (When
the target column *is* the merge-key name `PatientID`, the merge-key
fallback fills it and generation can succeed — see the counterexample.) -/
theorem patient_skipped_rule_fails_generation (toDT : String → Option String)
    (inputs : List (String × DF)) (mapping : List MappingRule)
    (rule : MappingRule)
    (hr : rule ∈ mapping) (hf : rule.targetFile = "patient_data")
    (hmk : rule.targetCol ≠ MERGE_KEY)
    (hsole : ∀ r' ∈ mapping, r'.targetFile = "patient_data" →
      r'.targetCol = rule.targetCol →
      (r'.inputKey ≠ some "Patient_Details" ∧ isBlankCell r'.inputCol = false)) :
    generatePatientData toDT inputs mapping = none := by
  unfold generatePatientData
  cases hlk : lookupDF inputs "Patient_Details" with
  | none => rfl
  | some pdf =>
    simp only []
    split
    · rfl
    · have hrpm : rule ∈ mapping.filter (fun r => r.targetFile = "patient_data") :=
        List.mem_filter.mpr ⟨hr, decide_eq_true hf⟩
      split
      · rfl
      · have hbuiltcol : (buildPatientOut toDT
            (mapping.filter (fun r => r.targetFile = "patient_data"))
            (dedupByKey pdf MERGE_KEY)).hasCol rule.targetCol = false := by
          by_contra hcontra
          have hture : (buildPatientOut toDT
              (mapping.filter (fun r => r.targetFile = "patient_data"))
              (dedupByKey pdf MERGE_KEY)).hasCol rule.targetCol = true := by
            simpa using hcontra
          rcases hasCol_buildPatientOut hture with ⟨r', hr', ht', hk'⟩
          have hmem' := List.mem_filter.mp hr'
          have hclaims := hsole r' hmem'.1 (of_decide_eq_true hmem'.2) ht'
          rcases hk' with hkey | hblank
          · exact hclaims.1 hkey
          · rw [hclaims.2] at hblank
            cases hblank
        have htmem : rule.targetCol ∈ uniqFS ((mapping.filter
            (fun r => r.targetFile = "patient_data")).map MappingRule.targetCol) :=
          (mem_uniqFS _ _).mpr (List.mem_map.mpr ⟨rule, hrpm, rfl⟩)
        split
        · rename_i hpid
          refine DF.selectCols?_eq_none ?_ hbuiltcol
          unfold moveFront
          rw [if_pos hpid]
          by_cases hteq : rule.targetCol = "patient_id"
          · rw [hteq]
            exact List.mem_cons_self _ _
          · exact List.mem_cons_of_mem _ ((List.mem_erase_of_ne hteq).mpr htmem)
        · rename_i hpid
          split
          · split
            · refine DF.selectCols?_eq_none
                (List.mem_cons_of_mem _ ((List.mem_erase_of_ne hmk).mpr htmem)) ?_
              have hnot : ¬ (((buildPatientOut toDT
                  (mapping.filter (fun r => r.targetFile = "patient_data"))
                  (dedupByKey pdf MERGE_KEY)).setCol MERGE_KEY
                    ((dedupByKey pdf MERGE_KEY).getColD MERGE_KEY)).hasCol
                      rule.targetCol = true) := by
                rw [DF.hasCol_setCol]
                rintro (hc | hc)
                · rw [hbuiltcol] at hc
                  cases hc
                · exact hmk hc
              exact Bool.eq_false_iff.mpr hnot
            · refine DF.selectCols?_eq_none
                (List.mem_cons_of_mem _ (mem_replaceFirst_of_ne htmem hmk)) ?_
              have hnot : ¬ (((buildPatientOut toDT
                  (mapping.filter (fun r => r.targetFile = "patient_data"))
                  (dedupByKey pdf MERGE_KEY)).renameCol MERGE_KEY
                    "patient_id").hasCol rule.targetCol = true) := by
                intro hc
                rcases DF.hasCol_renameCol hc with hc2 | hc2
                · rw [hbuiltcol] at hc2
                  cases hc2
                · exact hpid (hc2 ▸ htmem)
              exact Bool.eq_false_iff.mpr hnot
          · exact DF.selectCols?_eq_none htmem hbuiltcol

/-! ## Multi-source generator lemmas and claims -/

/-- Every row of a per-source result has a present, non-empty value in both
required columns, and no empty-string value in the version column when one
was configured. -/
theorem processSource_ok_fields {toDT : String → Option String}
    {dep depT : String} {verCol : Option String} {reqA reqB : String}
    {targets : List String} {group : List MappingRule} {df out : DF}
    (h : processSource toDT dep depT verCol reqA reqB targets group df =
      Except.ok (some out)) :
    (∀ c ∈ out.getColD reqA, cellNonEmpty c = true) ∧
    (∀ c ∈ out.getColD reqB, cellNonEmpty c = true) ∧
    (∀ v, verCol = some v → ∀ c ∈ out.getColD v, c ≠ some "") := by
  unfold processSource at h
  simp only [] at h
  split at h
  · injection h with h2
    exact Option.noConfusion h2
  · rename_i sel hsel
    split at h
    · exact Except.noConfusion h
    · rename_i hreq
      split at h
      · injection h with h2
        exact Option.noConfusion h2
      · rename_i hne
        injection h with h2
        injection h2 with h3
        subst h3
        constructor
        · intro c hc
          rw [getColD_filterRows] at hc
          rcases mem_maskFilter_zipWith_left hc with ⟨b, hb⟩
          have hc2 := (maskFilter_sublist _ _).subset hc
          rw [getColD_filterRows] at hc2
          rcases mem_maskFilter_zipWith_left hc2 with ⟨b2, hb2⟩
          rw [Bool.and_eq_true] at hb hb2
          rcases hb with ⟨hbne, _⟩
          rcases hb2 with ⟨hsome, _⟩
          cases c with
          | none => cases hsome
          | some s => simpa [cellToStr, cellNonEmpty] using hbne
        constructor
        · intro c hc
          rw [getColD_filterRows] at hc
          rcases mem_maskFilter_zipWith_right hc with ⟨a, ha⟩
          have hc2 := (maskFilter_sublist _ _).subset hc
          rw [getColD_filterRows] at hc2
          rcases mem_maskFilter_zipWith_right hc2 with ⟨a2, ha2⟩
          rw [Bool.and_eq_true] at ha ha2
          rcases ha with ⟨_, hbne⟩
          rcases ha2 with ⟨_, hsome⟩
          cases c with
          | none => cases hsome
          | some s => simpa [cellToStr, cellNonEmpty] using hbne
        · rintro v rfl c hc
          rw [getColD_filterRows] at hc
          have hc2 := (maskFilter_sublist _ _).subset hc
          rw [getColD_filterRows] at hc2
          have hc3 := (maskFilter_sublist _ _).subset hc2
          simp only [] at hc3
          by_cases hcol : sel.hasCol v = true
          · rw [if_pos hcol, getColD_filterRows] at hc3
            have := mem_maskFilter_map_self hc3
            intro heq
            subst heq
            simp [cellToStr] at this
          · rw [if_neg (by simpa using hcol),
              DF.getColD_eq_nil_of_not_hasCol (Bool.eq_false_iff.mpr hcol)] at hc3
            cases hc3

/-- Every frame collected by the source loop came from a successful
per-source run. -/
theorem sourcesLoop_ok_mem {inputs : List (String × DF)}
    {proc : List MappingRule → DF → Except String (Option DF)}
    {fm : List MappingRule} :
    ∀ {labels : List String} {parts : List DF},
      sourcesLoop inputs proc fm labels = Except.ok parts →
      ∀ d ∈ parts, ∃ group df, proc group df = Except.ok (some d) := by
  intro labels
  induction labels with
  | nil =>
    intro parts h d hd
    injection h with h2
    subst h2
    cases hd
  | cons label rest ih =>
    intro parts h d hd
    unfold sourcesLoop at h
    by_cases hlab : label = ""
    · rw [if_pos hlab] at h
      exact ih h d hd
    · rw [if_neg hlab] at h
      simp only [] at h
      cases hkeys : uniqFS (List.map MappingRule.inputKey
          (List.filter (fun r => decide (r.sourceLabel = label)) fm)) with
      | nil =>
        rw [hkeys] at h
        simp only [] at h
        exact ih h d hd
      | cons k ks =>
        rw [hkeys] at h
        cases ks with
        | cons k2 ks2 =>
          simp only [] at h
          exact ih h d hd
        | nil =>
          cases k with
          | none =>
            simp only [] at h
            exact ih h d hd
          | some ck =>
            simp only [] at h
            cases hdf : lookupDF inputs ck with
            | none =>
              rw [hdf] at h
              simp only [] at h
              exact ih h d hd
            | some df' =>
              rw [hdf] at h
              simp only [] at h
              by_cases hemp : df'.isEmpty = true
              · rw [if_pos hemp] at h
                exact ih h d hd
              · rw [if_neg hemp] at h
                cases hproc : proc (List.filter
                    (fun r => decide (r.sourceLabel = label)) fm) df' with
                | error e =>
                  rw [hproc] at h
                  simp only [] at h
                  exact Except.noConfusion h
                | ok o =>
                  rw [hproc] at h
                  cases o with
                  | none =>
                    simp only [] at h
                    exact ih h d hd
                  | some d' =>
                    simp only [] at h
                    cases hrest : sourcesLoop inputs proc fm rest with
                    | error e =>
                      rw [hrest] at h
                      simp only [] at h
                      exact Except.noConfusion h
                    | ok ds =>
                      rw [hrest] at h
                      simp only [] at h
                      injection h with h2
                      subst h2
                      rcases List.mem_cons.mp hd with rfl | hd2
                      · exact ⟨_, _, hproc⟩
                      · exact ih hrest d hd2

/-- Transport of a per-cell property from the per-source results to the
final concatenated-and-reordered frame. -/
theorem finalFrame_cell_prop {parts : List DF} {targets : List String}
    {name : String} {P : Cell → Prop}
    (hparts : ∀ d ∈ parts, ∀ c ∈ d.getColD name, P c) :
    ∀ c ∈ ((concatDFs parts).selectCols? targets).getD
      (concatDFs parts) |>.getColD name, P c := by
  intro c hc
  cases hsel : (concatDFs parts).selectCols? targets with
  | some selF =>
    rw [hsel] at hc
    simp only [Option.getD] at hc
    by_cases hmem : name ∈ targets
    · rw [(DF.selectCols?_eq_some hsel).2.2 name hmem] at hc
      rcases mem_concatDFs_col hc with ⟨d, hd, hcd⟩
      exact hparts d hd c hcd
    · have hnc : selF.hasCol name = false := by
        apply Bool.eq_false_iff.mpr
        intro habs
        have := (DF.hasCol_iff_mem_colNames selF name).mp habs
        rw [(DF.selectCols?_eq_some hsel).2.1] at this
        exact hmem this
      rw [DF.getColD_eq_nil_of_not_hasCol hnc] at hc
      cases hc
  | none =>
    rw [hsel] at hc
    simp only [Option.getD] at hc
    rcases mem_concatDFs_col hc with ⟨d, hd, hcd⟩
    exact hparts d hd c hcd

/-- Field guarantees of a successful medical-services generation. -/
theorem generateMedicalServices_ok_fields {toDT : String → Option String}
    {inputs : List (String × DF)} {mapping : List MappingRule} {dfm : DF}
    (h : generateMedicalServices toDT inputs mapping = Except.ok (some dfm)) :
    (∀ c ∈ dfm.getColD "patient_id", cellNonEmpty c = true) ∧
    (∀ c ∈ dfm.getColD "dx_cd_1", cellNonEmpty c = true) ∧
    (∀ c ∈ dfm.getColD "dx_version_1", c ≠ some "") := by
  unfold generateMedicalServices at h
  simp only [] at h
  split at h
  · injection h with h2
    exact Option.noConfusion h2
  · split at h
    · injection h with h2
      exact Option.noConfusion h2
    · split at h
      · exact Except.noConfusion h
      · injection h with h2
        exact Option.noConfusion h2
      · rename_i d0 ds hloop
        injection h with h2
        injection h2 with h3
        subst h3
        have hparts := fun d hd => sourcesLoop_ok_mem hloop d hd
        refine ⟨?_, ?_, ?_⟩
        · apply finalFrame_cell_prop
          intro d hd c hc
          rcases hparts d hd with ⟨g, df', hproc⟩
          exact (processSource_ok_fields hproc).1 c hc
        · apply finalFrame_cell_prop
          intro d hd c hc
          rcases hparts d hd with ⟨g, df', hproc⟩
          exact (processSource_ok_fields hproc).2.1 c hc
        · apply finalFrame_cell_prop
          intro d hd c hc
          rcases hparts d hd with ⟨g, df', hproc⟩
          exact (processSource_ok_fields hproc).2.2 "dx_version_1" rfl c hc

/-- Field guarantees of a successful pharmacy-data generation. -/
theorem generatePharmacyData_ok_fields {toDT : String → Option String}
    {inputs : List (String × DF)} {mapping : List MappingRule} {dfp : DF}
    (h : generatePharmacyData toDT inputs mapping = Except.ok (some dfp)) :
    (∀ c ∈ dfp.getColD "patient_id", cellNonEmpty c = true) ∧
    (∀ c ∈ dfp.getColD "rx_cd", cellNonEmpty c = true) := by
  unfold generatePharmacyData at h
  simp only [] at h
  split at h
  · injection h with h2
    exact Option.noConfusion h2
  · split at h
    · injection h with h2
      exact Option.noConfusion h2
    · split at h
      · exact Except.noConfusion h
      · injection h with h2
        exact Option.noConfusion h2
      · rename_i d0 ds hloop
        injection h with h2
        injection h2 with h3
        subst h3
        have hparts := fun d hd => sourcesLoop_ok_mem hloop d hd
        constructor
        · apply finalFrame_cell_prop
          intro d hd c hc
          rcases hparts d hd with ⟨g, df', hproc⟩
          exact (processSource_ok_fields hproc).1 c hc
        · apply finalFrame_cell_prop
          intro d hd c hc
          rcases hparts d hd with ⟨g, df', hproc⟩
          exact (processSource_ok_fields hproc).2.1 c hc

/-- C3 (amended): every row of a successful medical-services output has a
present, non-empty `patient_id` and `dx_cd_1`, and — when a `dx_version_1`
column exists — no row carries the *empty string* there; rows whose
`dx_version_1` is a missing value (`NaN`) survive, because the filter
compares `astype(str)` against `''` and `str(nan)` is `'nan'` (see the
counterexample).  Every row of a successful pharmacy-data output has a
present, non-empty `patient_id` and `rx_cd`. -/
theorem multi_source_required_fields_nonempty (toDT : String → Option String)
    (inputs : List (String × DF)) (mapping : List MappingRule) :
    (∀ dfm, generateMedicalServices toDT inputs mapping = Except.ok (some dfm) →
      (∀ c ∈ dfm.getColD "patient_id", cellNonEmpty c = true) ∧
      (∀ c ∈ dfm.getColD "dx_cd_1", cellNonEmpty c = true) ∧
      (∀ c ∈ dfm.getColD "dx_version_1", c ≠ some "")) ∧
    (∀ dfp, generatePharmacyData toDT inputs mapping = Except.ok (some dfp) →
      (∀ c ∈ dfp.getColD "patient_id", cellNonEmpty c = true) ∧
      (∀ c ∈ dfp.getColD "rx_cd", cellNonEmpty c = true)) :=
  ⟨fun _ h => generateMedicalServices_ok_fields h,
   fun _ h => generatePharmacyData_ok_fields h⟩

/-- Witness for C3 (amended) at a concrete medical + pharmacy run (the
medical source also drops its row with an empty `patient_id`). -/
theorem multi_source_required_fields_nonempty_witness :
    (∀ c ∈ ((⟨1, [("patient_id", [some "1"]), ("dx_cd_1", [some "c1"])]⟩ : DF).getColD
      "patient_id"), cellNonEmpty c = true) ∧
    (∀ c ∈ ((⟨1, [("patient_id", [some "1"]), ("rx_cd", [some "d1"])]⟩ : DF).getColD
      "rx_cd"), cellNonEmpty c = true) := by
  have h := multi_source_required_fields_nonempty (fun _ => none)
    [("Care_History", ⟨2, [("PatientID", [some "1", some ""]),
        ("Code", [some "c1", some "c2"])]⟩),
     ("Medication_History", ⟨1, [("PatientID", [some "1"]),
        ("DrugCode", [some "d1"])]⟩)]
    [⟨some "Care_History", some "PatientID", "medical_services", "patient_id", "", "care"⟩,
     ⟨some "Care_History", some "Code", "medical_services", "dx_cd_1", "", "care"⟩,
     ⟨some "Medication_History", some "PatientID", "pharmacy_data", "patient_id", "", "med"⟩,
     ⟨some "Medication_History", some "DrugCode", "pharmacy_data", "rx_cd", "", "med"⟩]
  exact ⟨(h.1 _ rfl).1, (h.2 _ rfl).2⟩

/-- C3 counterexample: a medical-services row whose `dx_version_1` is a
missing value survives the filters, so the output is *not* all non-empty in
`dx_version_1` as claimed: the final frame's `dx_version_1` column is
`[NaN]` (which serializes as an empty field). -/
theorem medical_dx_version_missing_counterexample :
    generateMedicalServices (fun _ => none)
      [("Care_History", ⟨1, [("P", [some "1"]), ("C", [some "c1"]),
          ("V", [none])]⟩)]
      [⟨some "Care_History", some "P", "medical_services", "patient_id", "", "care"⟩,
       ⟨some "Care_History", some "C", "medical_services", "dx_cd_1", "", "care"⟩,
       ⟨some "Care_History", some "V", "medical_services", "dx_version_1", "", "care"⟩]
      = Except.ok (some ⟨1, [("patient_id", [some "1"]), ("dx_cd_1", [some "c1"]),
          ("dx_version_1", [none])]⟩) ∧
    ((⟨1, [("patient_id", [some "1"]), ("dx_cd_1", [some "c1"]),
        ("dx_version_1", [none])]⟩ : DF).getColD "dx_version_1" = [none]) ∧
    ¬ (∀ c ∈ ((⟨1, [("patient_id", [some "1"]), ("dx_cd_1", [some "c1"]),
        ("dx_version_1", [none])]⟩ : DF).getColD "dx_version_1"),
          cellNonEmpty c = true) :=
  ⟨rfl, by decide, by decide⟩

/-- C1: when neither multi-source generator raises internally (in particular
for any mapping that, like the deployed one, routes `patient_id` and the
code columns into the multi-source files), `generate_acg_files` completes
the whole generator sequence and raises the single summary error exactly
when the patient-data or medical-services result is missing or empty; when
only the pharmacy result is missing or empty, nothing is raised and the
written set simply omits the pharmacy file. -/
theorem acg_run_error_iff_required_missing (toDT : String → Option String)
    (inputs : List (String × DF)) (mapping : List MappingRule)
    (rm rp : Option DF)
    (h1 : generateMedicalServices toDT inputs mapping = Except.ok rm)
    (h2 : generatePharmacyData toDT inputs mapping = Except.ok rp) :
    ∃ o, generateAcgFiles toDT inputs mapping = Except.ok o ∧
      (o.raised.isSome ↔
        (genGood (generatePatientData toDT inputs mapping) = false ∨
          genGood rm = false)) ∧
      (genGood (generatePatientData toDT inputs mapping) = true →
        genGood rm = true → genGood rp = false →
        o.raised = none ∧
          o.written.map Prod.fst = ["patient_data", "medical_services"]) := by
  refine ⟨_, by unfold generateAcgFiles; rw [h1, h2], ?_, ?_⟩
  · cases hp : genGood (generatePatientData toDT inputs mapping) with
    | true =>
      cases hm : genGood rm with
      | true => simp [hp, hm]
      | false => simp [hp, hm]
    | false => simp [hp]
  · intro hp hm hph
    constructor
    · simp [hp, hm]
    · have hwp : (writeEntry "patient_data"
          (generatePatientData toDT inputs mapping)).map Prod.fst =
          ["patient_data"] := by
        cases hg : generatePatientData toDT inputs mapping with
        | none =>
          rw [hg] at hp
          simp [genGood] at hp
        | some df =>
          rw [hg] at hp
          simp only [genGood, Bool.not_eq_true'] at hp
          simp [writeEntry, hp]
      have hwm : (writeEntry "medical_services" rm).map Prod.fst =
          ["medical_services"] := by
        cases rm with
        | none => simp [genGood] at hm
        | some df =>
          simp only [genGood, Bool.not_eq_true'] at hm
          simp [writeEntry, hm]
      have hwph : writeEntry "pharmacy_data" rp = [] := by
        cases rp with
        | none => rfl
        | some df =>
          simp only [genGood, Bool.not_eq_false'] at hph
          simp [writeEntry, hph]
      simp [hwp, hwm, hwph]

/-- Witness for C1: a run with good patient and medical results and no
pharmacy mapping completes without raising and writes exactly the two
required files. -/
theorem acg_run_error_iff_required_missing_witness :
    ∃ o, generateAcgFiles (fun _ => none)
      [("Patient_Details", ⟨1, [("PatientID", [some "1"])]⟩),
       ("Care_History", ⟨1, [("PatientID", [some "1"]), ("Code", [some "c1"])]⟩)]
      [⟨some "Patient_Details", some "PatientID", "patient_data", "patient_id", "", ""⟩,
       ⟨some "Care_History", some "PatientID", "medical_services", "patient_id", "", "care"⟩,
       ⟨some "Care_History", some "Code", "medical_services", "dx_cd_1", "", "care"⟩]
      = Except.ok o ∧ o.raised = none ∧
      o.written.map Prod.fst = ["patient_data", "medical_services"] := by
  obtain ⟨o, ho, hiff, himp⟩ := acg_run_error_iff_required_missing (fun _ => none)
    [("Patient_Details", ⟨1, [("PatientID", [some "1"])]⟩),
     ("Care_History", ⟨1, [("PatientID", [some "1"]), ("Code", [some "c1"])]⟩)]
    [⟨some "Patient_Details", some "PatientID", "patient_data", "patient_id", "", ""⟩,
     ⟨some "Care_History", some "PatientID", "medical_services", "patient_id", "", "care"⟩,
     ⟨some "Care_History", some "Code", "medical_services", "dx_cd_1", "", "care"⟩]
    (some ⟨1, [("patient_id", [some "1"]), ("dx_cd_1", [some "c1"])]⟩) none
    rfl rfl
  rcases himp (by decide) (by decide) (by decide) with ⟨hraised, hwritten⟩
  exact ⟨o, ho, hraised, hwritten⟩

/-- C2 counterexample: with the merge key unmapped, the inserted first
column is literally named `PatientID`, not `patient_id` as the claim
states. -/
theorem patient_first_column_name_counterexample :
    generatePatientData (fun _ => none)
      [("Patient_Details", ⟨1, [("PatientID", [some "7"]), ("Age", [some "42"])]⟩)]
      [⟨some "Patient_Details", some "Age", "patient_data", "age", "", ""⟩]
      = some ⟨1, [("PatientID", [some "7"]), ("age", [some "42"])]⟩ ∧
    (⟨1, [("PatientID", [some "7"]), ("age", [some "42"])]⟩ : DF).colNames.head?
      = some "PatientID" ∧
    "PatientID" ≠ "patient_id" :=
  ⟨by decide, by decide, by decide⟩

/-- C10 counterexample: when the skipped rule's target column is the
merge-key name itself, the merge-key fallback fills it and generation
*succeeds*, contradicting the claim that generation fails for every such
mapping. -/
theorem patient_skip_rule_merge_key_rescue_counterexample :
    generatePatientData (fun _ => none)
      [("Patient_Details", ⟨1, [("PatientID", [some "7"])]⟩)]
      [⟨some "Other", some "X", "patient_data", "PatientID", "", ""⟩]
      = some ⟨1, [("PatientID", [some "7"])]⟩ ∧
    (some (⟨1, [("PatientID", [some "7"])]⟩ : DF) ≠ (none : Option DF)) :=
  ⟨by decide, by decide⟩

/-- Witness for C10 (amended): a concrete mapping whose only rule for target
`age` reads from another dataset makes generation fail. -/
theorem patient_skipped_rule_fails_generation_witness :
    generatePatientData (fun _ => none)
      [("Patient_Details", ⟨1, [("PatientID", [some "7"])]⟩)]
      [⟨some "Other", some "X", "patient_data", "age", "", ""⟩]
      = none :=
  patient_skipped_rule_fails_generation (fun _ => none)
    [("Patient_Details", ⟨1, [("PatientID", [some "7"])]⟩)]
    [⟨some "Other", some "X", "patient_data", "age", "", ""⟩]
    ⟨some "Other", some "X", "patient_data", "age", "", ""⟩
    (List.mem_singleton.mpr rfl) rfl (by decide)
    (by
      intro r' hr' _ _
      rcases List.mem_singleton.mp hr' with rfl
      exact ⟨by decide, by decide⟩)

end AcgEngine
